import Mathlib

/-!
A shallow embedding of the core of the `oneco` data collector: the field
normalizer (`DataNormalizer` in `src/data_collector/domain/normalizer.py`),
the diff engine (`DiffDetector` in `src/data_collector/domain/diff_detector.py`)
and the run orchestrator (`CollectorService` in
`src/data_collector/orchestration/collector_service.py`), together with
theorems about their behaviour.

Python strings are modelled as `List Char`; Python regular-expression
searches are modelled by explicit scanning functions whose behaviour matches
the greedy, leftmost-match semantics of `re.search` on the concrete patterns
used by the source.
-/

/-- A character of Python's `\d` class as it can occur in this domain:
the ASCII digits and their full-width counterparts (both lie in the Unicode
`Nd` category that `\d` matches). -/
def isPyDigit (c : Char) : Bool :=
  ('0' ≤ c && c ≤ '9') || ('０' ≤ c && c ≤ '９')

/-- Numeric value of a digit character, as Python's `int()` reads it. -/
def pyDigitVal (c : Char) : Nat :=
  if '0' ≤ c && c ≤ '9' then c.toNat - 48
  else if '０' ≤ c && c ≤ '９' then c.toNat - 0xFF10
  else 0

/-- A character of Python's whitespace class (`str.strip` / `\s`), restricted
to the code points that occur in this domain: ASCII whitespace, NBSP and the
ideographic space. -/
def isPySpace (c : Char) : Bool :=
  [32, 9, 10, 13, 11, 12, 160, 0x3000].contains c.toNat

/-- Python `str.strip()`: drop whitespace from both ends. -/
def pyStrip (l : List Char) : List Char :=
  ((l.dropWhile isPySpace).reverse.dropWhile isPySpace).reverse

/-- Python `str.lower()` (ASCII range; the Japanese characters used by the
source are unaffected by lowering, as in Python). -/
def pyLower (l : List Char) : List Char :=
  l.map Char.toLower

/-- Value of a digit string, as Python's `int()` computes it
(most significant digit first). -/
def charsToNat (l : List Char) : Nat :=
  l.foldl (fun a c => 10 * a + pyDigitVal c) 0

/-- The decimal digit character for `d < 10`. -/
def digitChar (d : Nat) : Char :=
  Char.ofNat (48 + d)

/-- Decimal rendering of `n`, fuelled to make the recursion structural. -/
def natToCharsAux : Nat → Nat → List Char
  | 0, _ => []
  | _ + 1, 0 => []
  | fuel + 1, n + 1 =>
    natToCharsAux fuel ((n + 1) / 10) ++ [digitChar ((n + 1) % 10)]

/-- Decimal rendering of a natural number, as Python's `str`/`%d` formatting
produces it. -/
def natToChars (n : Nat) : List Char :=
  if n = 0 then ['0'] else natToCharsAux n n

theorem dropWhile_eq_self_of_head {p : Char → Bool} :
    ∀ {l : List Char}, (∀ c ∈ l, p c = false) → l.dropWhile p = l := by
  intro l h
  cases l with
  | nil => rfl
  | cons c cs =>
    simp [List.dropWhile_cons, h c (by simp)]

theorem pyStrip_of_no_space {l : List Char}
    (h : ∀ c ∈ l, isPySpace c = false) : pyStrip l = l := by
  unfold pyStrip
  rw [dropWhile_eq_self_of_head h]
  rw [dropWhile_eq_self_of_head (by intro c hc; exact h c (List.mem_reverse.mp hc))]
  exact List.reverse_reverse l

theorem charsToNat_append_singleton (l : List Char) (c : Char) :
    charsToNat (l ++ [c]) = 10 * charsToNat l + pyDigitVal c := by
  have aux : ∀ (l : List Char) (a : Nat),
      List.foldl (fun a c => 10 * a + pyDigitVal c) a (l ++ [c]) =
        10 * List.foldl (fun a c => 10 * a + pyDigitVal c) a l + pyDigitVal c := by
    intro l
    induction l with
    | nil => intro a; rfl
    | cons x xs ih =>
      intro a
      simp only [List.cons_append, List.foldl_cons]
      exact ih (10 * a + pyDigitVal x)
  exact aux l 0

theorem pyDigitVal_digitChar {d : Nat} (h : d < 10) :
    pyDigitVal (digitChar d) = d := by
  interval_cases d <;> rfl

theorem isPyDigit_digitChar {d : Nat} (h : d < 10) :
    isPyDigit (digitChar d) = true := by
  interval_cases d <;> rfl

theorem charsToNat_natToCharsAux :
    ∀ (fuel n : Nat), n ≤ fuel → charsToNat (natToCharsAux fuel n) = n := by
  intro fuel
  induction fuel with
  | zero =>
    intro n h
    interval_cases n
    rfl
  | succ f ih =>
    intro n h
    cases n with
    | zero => rfl
    | succ m =>
      have hdiv : (m + 1) / 10 ≤ f := by
        have := Nat.div_lt_self (Nat.succ_pos m) (show 1 < 10 by norm_num)
        omega
      rw [natToCharsAux, charsToNat_append_singleton, ih ((m + 1) / 10) hdiv,
        pyDigitVal_digitChar (Nat.mod_lt _ (by norm_num))]
      exact Nat.div_add_mod (m + 1) 10

theorem charsToNat_natToChars (n : Nat) :
    charsToNat (natToChars n) = n := by
  cases n with
  | zero => rfl
  | succ m =>
    rw [natToChars, if_neg (Nat.succ_ne_zero m)]
    exact charsToNat_natToCharsAux (m + 1) (m + 1) le_rfl

theorem natToCharsAux_all_digit :
    ∀ (fuel n : Nat), ∀ c ∈ natToCharsAux fuel n, isPyDigit c = true := by
  intro fuel
  induction fuel with
  | zero => intro n c hc; simp [natToCharsAux] at hc
  | succ f ih =>
    intro n c hc
    cases n with
    | zero => simp [natToCharsAux] at hc
    | succ m =>
      rw [natToCharsAux] at hc
      rcases List.mem_append.mp hc with h | h
      · exact ih _ c h
      · simp at h
        subst h
        exact isPyDigit_digitChar (Nat.mod_lt _ (by norm_num))

theorem natToChars_all_digit (n : Nat) :
    ∀ c ∈ natToChars n, isPyDigit c = true := by
  intro c hc
  cases n with
  | zero =>
    simp [natToChars] at hc
    subst hc; rfl
  | succ m =>
    rw [natToChars, if_neg (Nat.succ_ne_zero m)] at hc
    exact natToCharsAux_all_digit _ _ c hc

theorem natToCharsAux_ne_nil {fuel n : Nat} (hf : 1 ≤ fuel) (hn : 1 ≤ n) :
    natToCharsAux fuel n ≠ [] := by
  cases fuel with
  | zero => omega
  | succ f =>
    cases n with
    | zero => omega
    | succ m => simp [natToCharsAux]

theorem natToChars_ne_nil (n : Nat) : natToChars n ≠ [] := by
  cases n with
  | zero => simp [natToChars]
  | succ m =>
    rw [natToChars, if_neg (Nat.succ_ne_zero m)]
    exact natToCharsAux_ne_nil (Nat.succ_le_succ (Nat.zero_le m)) (Nat.succ_le_succ (Nat.zero_le m))

theorem natToCharsAux_len_le :
    ∀ (fuel n k : Nat), n ≤ fuel → n < 10 ^ k →
      (natToCharsAux fuel n).length ≤ k := by
  intro fuel
  induction fuel with
  | zero =>
    intro n k h _
    interval_cases n
    simp [natToCharsAux]
  | succ f ih =>
    intro n k h hk
    cases n with
    | zero => simp [natToCharsAux]
    | succ m =>
      cases k with
      | zero => simp at hk
      | succ k' =>
        rw [natToCharsAux]
        rw [List.length_append]
        simp only [List.length_singleton]
        have h1 : (m + 1) / 10 ≤ f := by
          have := Nat.div_lt_self (Nat.succ_pos m) (show 1 < 10 by norm_num)
          omega
        have h2 : (m + 1) / 10 < 10 ^ k' := by
          rw [Nat.div_lt_iff_lt_mul (by norm_num)]
          calc m + 1 < 10 ^ (k' + 1) := hk
            _ = 10 ^ k' * 10 := by ring
        have := ih ((m + 1) / 10) k' h1 h2
        omega

theorem natToChars_len_le {n k : Nat} (hk : 1 ≤ k) (h : n < 10 ^ k) :
    (natToChars n).length ≤ k := by
  cases n with
  | zero => simpa [natToChars] using hk
  | succ m =>
    rw [natToChars, if_neg (Nat.succ_ne_zero m)]
    exact natToCharsAux_len_le _ _ _ le_rfl h

theorem natToChars_len_pos (n : Nat) : 1 ≤ (natToChars n).length := by
  have := natToChars_ne_nil n
  cases h : natToChars n with
  | nil => exact absurd h this
  | cons a l => simp

/-- Split a character list on `'-'`, keeping empty groups (Python
`str.split("-")` semantics as far as the theorems below need it). -/
def hyphenSplit : List Char → List (List Char)
  | [] => [[]]
  | c :: rest =>
    if c = '-' then [] :: hyphenSplit rest
    else
      match hyphenSplit rest with
      | g :: gs => (c :: g) :: gs
      | [] => [[c]]

theorem hyphenSplit_ne_nil (l : List Char) : hyphenSplit l ≠ [] := by
  cases l with
  | nil => simp [hyphenSplit]
  | cons c rest =>
    rw [hyphenSplit]
    by_cases h : c = '-'
    · simp [h]
    · rw [if_neg h]
      cases hyphenSplit rest <;> simp

theorem hyphenSplit_append {xs : List Char} (h : ∀ c ∈ xs, c ≠ '-')
    (rest : List Char) :
    hyphenSplit (xs ++ rest) =
      (xs ++ (hyphenSplit rest).headI) :: (hyphenSplit rest).tail := by
  induction xs with
  | nil =>
    cases h' : hyphenSplit rest with
    | nil => exact absurd h' (hyphenSplit_ne_nil rest)
    | cons g gs => simp [h']
  | cons x xs ih =>
    have hx : x ≠ '-' := h x (by simp)
    have hrest : ∀ c ∈ xs, c ≠ '-' := fun c hc => h c (by simp [hc])
    rw [List.cons_append, hyphenSplit, if_neg hx, ih hrest]
    cases h' : hyphenSplit rest with
    | nil => exact absurd h' (hyphenSplit_ne_nil rest)
    | cons g gs => simp

theorem hyphenSplit_no_hyphen {xs : List Char} (h : ∀ c ∈ xs, c ≠ '-') :
    hyphenSplit xs = [xs] := by
  have := hyphenSplit_append h []
  simpa [hyphenSplit] using this

theorem isPyDigit_ne_hyphen {c : Char} (h : isPyDigit c = true) : c ≠ '-' := by
  intro he
  subst he
  simp [isPyDigit] at h

/-! ## Field normalizer: phone numbers (`DataNormalizer._normalize_phone`) -/

/-- The fixed set of two-digit area codes recognised by the source
(`normalizer.py` line 281: `['03', '04', '05', '06']`). -/
def AREA_CODES_2 : List (List Char) :=
  [['0', '3'], ['0', '4'], ['0', '5'], ['0', '6']]

/-- The `phone_str` local of `_normalize_phone`: the stripped input with all
parentheses removed. -/
def phoneStripped (raw : List Char) : List Char :=
  (pyStrip raw).filter (fun c => !(c = '(' || c = ')'))

/-- The `digits` local of `_normalize_phone`: the digit-only string extracted
with `re.sub(r'\D', '', phone_str)`. -/
def phoneDigits (raw : List Char) : List Char :=
  (phoneStripped raw).filter isPyDigit

/-- `DataNormalizer._normalize_phone`.  The source computes `digits` by the
same `re.sub` in both arms of its `"-" in phone_str` conditional, so that
conditional is dropped.  Slices follow the source: 10 digits split as
`[0:2]/[2:6]/[6:10]` or `[0:3]/[3:6]/[6:10]`, 11 digits as `[0:3]/[3:7]/[7:11]`,
otherwise `digits if digits else phone_str`. -/
def normalize_phone (raw : List Char) : List Char :=
  if (phoneDigits raw).length = 10 then
    if (phoneDigits raw).take 2 ∈ AREA_CODES_2 then
      (phoneDigits raw).take 2 ++
        '-' :: (((phoneDigits raw).drop 2).take 4 ++ '-' :: (phoneDigits raw).drop 6)
    else
      (phoneDigits raw).take 3 ++
        '-' :: (((phoneDigits raw).drop 3).take 3 ++ '-' :: (phoneDigits raw).drop 6)
  else if (phoneDigits raw).length = 11 then
    (phoneDigits raw).take 3 ++
      '-' :: (((phoneDigits raw).drop 3).take 4 ++ '-' :: (phoneDigits raw).drop 7)
  else if phoneDigits raw = [] then phoneStripped raw else phoneDigits raw

theorem hyphenSplit_three {a b c : List Char}
    (ha : ∀ x ∈ a, x ≠ '-') (hb : ∀ x ∈ b, x ≠ '-') (hc : ∀ x ∈ c, x ≠ '-') :
    hyphenSplit (a ++ '-' :: (b ++ '-' :: c)) = [a, b, c] := by
  rw [hyphenSplit_append ha]
  have e1 : hyphenSplit ('-' :: (b ++ '-' :: c)) = [] :: hyphenSplit (b ++ '-' :: c) := by
    rw [hyphenSplit]; simp
  rw [e1, hyphenSplit_append hb]
  have e2 : hyphenSplit ('-' :: c) = [] :: hyphenSplit c := by
    rw [hyphenSplit]; simp
  rw [e2, hyphenSplit_no_hyphen hc]
  simp

theorem phoneDigits_all_digit (raw : List Char) :
    ∀ x ∈ phoneDigits raw, isPyDigit x = true := by
  intro x hx
  exact (List.mem_filter.mp hx).2

/-- Claim C2, amended form: on a 10-digit extraction, the output's hyphen
groups concatenate back to the digit string and have sizes 2-4-4 when the
first two digits are a known 2-digit area code, and 3-3-4 otherwise. -/
theorem C2_phone_ten_digit_grouping (raw : List Char)
    (h : (phoneDigits raw).length = 10) :
    (hyphenSplit (normalize_phone raw)).flatten = phoneDigits raw ∧
    (hyphenSplit (normalize_phone raw)).map List.length =
      (if (phoneDigits raw).take 2 ∈ AREA_CODES_2 then [2, 4, 4] else [3, 3, 4]) := by
  have hdig := phoneDigits_all_digit raw
  have hne : ∀ x ∈ phoneDigits raw, x ≠ '-' := fun x hx =>
    isPyDigit_ne_hyphen (hdig x hx)
  have htake : ∀ n, ∀ x ∈ (phoneDigits raw).take n, x ≠ '-' := fun n x hx =>
    hne x (List.take_subset n _ hx)
  have hdrop : ∀ n, ∀ x ∈ (phoneDigits raw).drop n, x ≠ '-' := fun n x hx =>
    hne x (List.drop_subset n _ hx)
  have hdroptake : ∀ n m, ∀ x ∈ ((phoneDigits raw).drop n).take m, x ≠ '-' :=
    fun n m x hx => hdrop n x (List.take_subset m _ hx)
  by_cases hm : (phoneDigits raw).take 2 ∈ AREA_CODES_2
  · rw [normalize_phone, if_pos h, if_pos hm,
      hyphenSplit_three (htake 2) (hdroptake 2 4) (hdrop 6), if_pos hm]
    constructor
    · show (phoneDigits raw).take 2 ++ (((phoneDigits raw).drop 2).take 4 ++
        ((phoneDigits raw).drop 6 ++ [])) = phoneDigits raw
      rw [List.append_nil]
      rw [show (phoneDigits raw).drop 6 = ((phoneDigits raw).drop 2).drop 4 from by
        rw [List.drop_drop]]
      rw [List.take_append_drop, List.take_append_drop]
    · simp [List.length_take, List.length_drop, h]
  · rw [normalize_phone, if_pos h, if_neg hm,
      hyphenSplit_three (htake 3) (hdroptake 3 3) (hdrop 6), if_neg hm]
    constructor
    · show (phoneDigits raw).take 3 ++ (((phoneDigits raw).drop 3).take 3 ++
        ((phoneDigits raw).drop 6 ++ [])) = phoneDigits raw
      rw [List.append_nil]
      rw [show (phoneDigits raw).drop 6 = ((phoneDigits raw).drop 3).drop 3 from by
        rw [List.drop_drop]]
      rw [List.take_append_drop, List.take_append_drop]
    · simp [List.length_take, List.length_drop, h]

/-- Witness for `C2_phone_ten_digit_grouping` at the source's own test input
`"0881234567"` (a 3-digit area code, hence the 3-3-4 arm). -/
theorem C2_phone_ten_digit_grouping_witness :
    (phoneDigits "0881234567".toList).length = 10 ∧
    ((hyphenSplit (normalize_phone "0881234567".toList)).flatten =
        phoneDigits "0881234567".toList ∧
      (hyphenSplit (normalize_phone "0881234567".toList)).map List.length =
        (if (phoneDigits "0881234567".toList).take 2 ∈ AREA_CODES_2 then
          [2, 4, 4] else [3, 3, 4])) :=
  ⟨by decide, C2_phone_ten_digit_grouping "0881234567".toList (by decide)⟩

/-- Claim C2, counterexample to the stated 2-3-4 grouping: for the 10-digit
input `"0312345678"` whose first two digits are the area code `03`, the source
returns `"03-1234-5678"` — hyphen groups of sizes 2-4-4, not 2-3-4. -/
theorem C2_counterexample :
    normalize_phone "0312345678".toList = "03-1234-5678".toList ∧
    (hyphenSplit (normalize_phone "0312345678".toList)).map List.length = [2, 4, 4] ∧
    (hyphenSplit (normalize_phone "0312345678".toList)).map List.length ≠ [2, 3, 4] :=
  ⟨by decide, by decide, by decide⟩

/-- Claim C8, amended form: when the extracted digit count is neither 10 nor
11, the source returns the bare digit string when it is non-empty, and the
stripped parenthesis-free input (not the empty digit string) when the input
contains no digits at all. -/
theorem C8_phone_other_digit_counts (raw : List Char)
    (h10 : (phoneDigits raw).length ≠ 10) (h11 : (phoneDigits raw).length ≠ 11) :
    normalize_phone raw =
      (if phoneDigits raw = [] then phoneStripped raw else phoneDigits raw) := by
  rw [normalize_phone, if_neg h10, if_neg h11]

/-- Witness for `C8_phone_other_digit_counts` at the source's own test input
`"123"`. -/
theorem C8_phone_other_digit_counts_witness :
    (phoneDigits "123".toList).length ≠ 10 ∧
    (phoneDigits "123".toList).length ≠ 11 ∧
    normalize_phone "123".toList =
      (if phoneDigits "123".toList = [] then phoneStripped "123".toList
        else phoneDigits "123".toList) :=
  ⟨by decide, by decide,
    C8_phone_other_digit_counts "123".toList (by decide) (by decide)⟩

/-- Claim C8, counterexample to the "including when the input contains no
digit characters" part: for input `"abc"` the extracted digit string is empty,
yet the source returns `"abc"` rather than that empty digit string. -/
theorem C8_counterexample :
    normalize_phone "abc".toList = "abc".toList ∧
    phoneDigits "abc".toList = [] ∧
    normalize_phone "abc".toList ≠ ([] : List Char) :=
  ⟨by decide, by decide, by decide⟩

/-! ## Field normalizer: sex (`DataNormalizer._normalize_sex`) -/

/-- Boolean prefix test on character lists. -/
def prefixOfB : List Char → List Char → Bool
  | [], _ => true
  | _ :: _, [] => false
  | a :: as, b :: bs => (a = b) && prefixOfB as bs

/-- Python's substring operator `needle in hay` on character lists. -/
def containsSub (needle : List Char) : List Char → Bool
  | [] => prefixOfB needle []
  | c :: rest => prefixOfB needle (c :: rest) || containsSub needle rest

/-- `_SEX_MALE_PATTERNS` from the source. -/
def SEX_MALE_PATTERNS : List (List Char) :=
  ["男の子", "オトコノコ", "オス", "おす", "雄", "♂", "male"].map String.toList

/-- `_SEX_FEMALE_PATTERNS` from the source. -/
def SEX_FEMALE_PATTERNS : List (List Char) :=
  ["女の子", "オンナノコ", "メス", "めす", "雌", "♀", "female"].map String.toList

/-- `DataNormalizer._normalize_sex`: lower and strip the input, then check the
female patterns before the male patterns (the source comments that `male` is
contained in `female`, hence the order). -/
def normalize_sex (raw : List Char) : List Char :=
  if SEX_FEMALE_PATTERNS.any (fun p => containsSub (pyLower p) (pyStrip (pyLower raw))) then
    "女の子".toList
  else if SEX_MALE_PATTERNS.any (fun p => containsSub (pyLower p) (pyStrip (pyLower raw))) then
    "男の子".toList
  else
    "不明".toList

/-- Claim C9: every input containing a female-indicating token (matched
case-insensitively against the lowered, stripped text, as the source does) is
classified female, regardless of any male-indicating token in the same text,
because the female list is checked first. -/
theorem C9_sex_female_checked_first (raw : List Char)
    (h : SEX_FEMALE_PATTERNS.any
      (fun p => containsSub (pyLower p) (pyStrip (pyLower raw))) = true) :
    normalize_sex raw = "女の子".toList := by
  simp only [normalize_sex, h, if_true]

/-- Witness for `C9_sex_female_checked_first` at input `"female"`, which also
contains the male token `"male"` as a substring. -/
theorem C9_sex_female_checked_first_witness :
    (SEX_FEMALE_PATTERNS.any
      (fun p => containsSub (pyLower p) (pyStrip (pyLower "female".toList))) = true) ∧
    (containsSub "male".toList (pyStrip (pyLower "female".toList)) = true) ∧
    normalize_sex "female".toList = "女の子".toList :=
  ⟨by decide, by decide, C9_sex_female_checked_first "female".toList (by decide)⟩

/-! ## Field normalizer: age (`DataNormalizer._normalize_age`) -/

/-- `_UNKNOWN_PATTERNS` from the source (shared unknown-literal set). -/
def UNKNOWN_PATTERNS : List (List Char) :=
  ["不明", "?", "？", "unknown", ""].map String.toList

/-- One attempted match of `(\d+)\s*<marker>` at the head of `s`.  The greedy
`\d+` can only match the maximal digit run (a shorter run leaves a digit
where `\s*<marker>` must start), and `\s*` likewise consumes the maximal
whitespace run, so the attempt succeeds exactly when the maximal digit run is
non-empty and, after skipping whitespace, `marker` accepts the remainder. -/
def headNumMarker (marker : List Char → Bool) (s : List Char) : Option Nat :=
  if s.takeWhile isPyDigit = [] then none
  else if marker ((s.dropWhile isPyDigit).dropWhile isPySpace) then
    some (charsToNat (s.takeWhile isPyDigit))
  else none

/-- `re.search`: try the pattern at each start position, leftmost first. -/
def scanFirst {α : Type} (f : List Char → Option α) : List Char → Option α
  | [] => none
  | c :: cs =>
    match f (c :: cs) with
    | some r => some r
    | none => scanFirst f cs

/-- The literal `歳` that ends the years pattern `(\d+)\s*歳`. -/
def marker_sai : List Char → Bool
  | c :: _ => c = '歳'
  | [] => false

/-- The literal `[ヶかカケ]月` that ends the months pattern. -/
def marker_kagetsu : List Char → Bool
  | c1 :: c2 :: _ => (c1 = 'ヶ' || c1 = 'か' || c1 = 'カ' || c1 = 'ケ') && c2 = '月'
  | _ => false

/-- The literal `年` that ends the alternate years pattern `(\d+)\s*年`. -/
def marker_nen : List Char → Bool
  | c :: _ => c = '年'
  | [] => false

/-- `DataNormalizer._normalize_age`: unknown literals give `none`; otherwise
the three patterns are tried in source order and the first match wins. -/
def normalize_age (raw : List Char) : Option Nat :=
  if pyStrip raw ∈ UNKNOWN_PATTERNS then none
  else
    match scanFirst (headNumMarker marker_sai) (pyStrip raw) with
    | some years => some (years * 12)
    | none =>
      match scanFirst (headNumMarker marker_kagetsu) (pyStrip raw) with
      | some months => some months
      | none =>
        match scanFirst (headNumMarker marker_nen) (pyStrip raw) with
        | some years => some (years * 12)
        | none => none

/-- Claim C10: when the stripped input matches both the years pattern `N歳`
(with value `n`) and the months pattern `Mヶ月`, the years pattern is tried
first, so the result is `n * 12` and the months component is discarded. -/
theorem C10_age_years_pattern_wins (raw : List Char) (n m : Nat)
    (hy : scanFirst (headNumMarker marker_sai) (pyStrip raw) = some n)
    (_hm : scanFirst (headNumMarker marker_kagetsu) (pyStrip raw) = some m) :
    normalize_age raw = some (n * 12) := by
  have hunk : pyStrip raw ∉ UNKNOWN_PATTERNS := by
    intro hmem
    simp only [UNKNOWN_PATTERNS, List.map_cons, List.map_nil, List.mem_cons,
      List.not_mem_nil, or_false] at hmem
    rcases hmem with h | h | h | h | h <;>
      · rw [h] at hy
        rw [show scanFirst (headNumMarker marker_sai) _ = none from by decide] at hy
        exact Option.noConfusion hy
  rw [normalize_age, if_neg hunk, hy]

/-- Witness for `C10_age_years_pattern_wins` at the input `"1歳3ヶ月"`. -/
theorem C10_age_years_pattern_wins_witness :
    scanFirst (headNumMarker marker_sai) (pyStrip "1歳3ヶ月".toList) = some 1 ∧
    scanFirst (headNumMarker marker_kagetsu) (pyStrip "1歳3ヶ月".toList) = some 3 ∧
    normalize_age "1歳3ヶ月".toList = some 12 :=
  ⟨by decide, by decide,
    C10_age_years_pattern_wins "1歳3ヶ月".toList 1 3 (by decide) (by decide)⟩

example : normalize_age "2歳".toList = some 24 := by decide
example : normalize_age "6か月".toList = some 6 := by decide
example : normalize_age "3年".toList = some 36 := by decide
example : normalize_age "不明".toList = none := by decide
example : normalize_age "とても元気".toList = none := by decide
example : normalize_sex "オス".toList = "男の子".toList := by decide
example : normalize_sex "MALE".toList = "男の子".toList := by decide
example : normalize_sex "？".toList = "不明".toList := by decide

/-! ## Field normalizer: dates (`DataNormalizer._normalize_date`) -/

/-- Gregorian leap year, as Python's `datetime` computes it. -/
def isLeap (y : Nat) : Bool :=
  (y % 4 = 0 && y % 100 ≠ 0) || y % 400 = 0

/-- Days in a month of a given year. -/
def daysInMonth (y m : Nat) : Nat :=
  if m = 2 then (if isLeap y then 29 else 28)
  else if m = 4 || m = 6 || m = 9 || m = 11 then 30
  else 31

/-- A (year, month, day) triple constructible as a Python `datetime.date`
(`MINYEAR = 1`, `MAXYEAR = 9999`). -/
def validDate (y m d : Nat) : Bool :=
  1 ≤ y && y ≤ 9999 && 1 ≤ m && m ≤ 12 && 1 ≤ d && d ≤ daysInMonth y m

/-- Zero-padded two-digit rendering (`%m` / `%d`). -/
def pad2 (n : Nat) : List Char :=
  if n < 10 then '0' :: natToChars n else natToChars n

/-- `date.strftime("%Y-%m-%d")` as glibc renders it: `%Y` without padding,
`%m` and `%d` zero-padded to two digits.  Years below 1000 are reachable only
from four-digit-year inputs with leading zeros. -/
def fmtDate (y m d : Nat) : List Char :=
  natToChars y ++ '-' :: (pad2 m ++ '-' :: pad2 d)

/-- The anchored check `re.match(r'^\d{4}-\d{2}-\d{2}$', ...)` together with
the digit extraction that the subsequent `strptime` performs on a match. -/
def isoParse (t : List Char) : Option (Nat × Nat × Nat) :=
  match t with
  | [a, b, c, d, h1, e, f, h2, g, i] =>
    if isPyDigit a && isPyDigit b && isPyDigit c && isPyDigit d && h1 = '-' &&
        isPyDigit e && isPyDigit f && h2 = '-' && isPyDigit g && isPyDigit i then
      some (charsToNat [a, b, c, d], charsToNat [e, f], charsToNat [g, i])
    else none
  | _ => none

/-- One attempted match of `(\d+)<marker>` at the head of `s`.  The greedy
`\d+` can only match the maximal digit run (after a shorter run the next
character is still a digit, not the marker), so the attempt succeeds exactly
when the maximal run is non-empty and the marker follows it.  Returns the
run's value and the characters after the marker. -/
def expectNum (marker : Char) (s : List Char) : Option (Nat × List Char) :=
  if s.takeWhile isPyDigit = [] then none
  else
    match s.dropWhile isPyDigit with
    | c :: rest =>
      if c = marker then some (charsToNat (s.takeWhile isPyDigit), rest) else none
    | [] => none

/-- One attempted match of `(\d{1,2})<marker>` at the head of `s`: with a
literal right after the group, backtracking cannot shorten the digit run, so
the attempt succeeds exactly when the maximal run has length 1 or 2 and the
marker follows it. -/
def expectNum12 (marker : Char) (s : List Char) : Option (Nat × List Char) :=
  if (s.takeWhile isPyDigit).length = 0 || 2 < (s.takeWhile isPyDigit).length then
    none
  else
    match s.dropWhile isPyDigit with
    | c :: rest =>
      if c = marker then some (charsToNat (s.takeWhile isPyDigit), rest) else none
    | [] => none

/-- A trailing `(\d{1,2})` with nothing after it greedily takes the first
`min 2 (run length)` digits of a non-empty digit run. -/
def takeNum12 (s : List Char) : Option Nat :=
  if s.takeWhile isPyDigit = [] then none
  else some (charsToNat ((s.takeWhile isPyDigit).take 2))

/-- `令和(\d+)年(\d+)月(\d+)日` attempted at the head of `s`. -/
def headMatchReiwa (s : List Char) : Option (Nat × Nat × Nat) :=
  match s with
  | c1 :: c2 :: rest =>
    if c1 = '令' && c2 = '和' then
      match expectNum '年' rest with
      | some (n, r1) =>
        match expectNum '月' r1 with
        | some (m, r2) =>
          match expectNum '日' r2 with
          | some (d, _) => some (n, m, d)
          | none => none
        | none => none
      | none => none
    else none
  | _ => none

/-- `R(\d{1,2})\.(\d{1,2})/(\d{1,2})` attempted at the head of `s`. -/
def headMatchR (s : List Char) : Option (Nat × Nat × Nat) :=
  match s with
  | c :: rest =>
    if c = 'R' then
      match expectNum12 '.' rest with
      | some (n, r1) =>
        match expectNum12 '/' r1 with
        | some (m, r2) =>
          match takeNum12 r2 with
          | some d => some (n, m, d)
          | none => none
        | none => none
      | none => none
    else none
  | [] => none

/-- `(\d{4})/(\d{1,2})/(\d{1,2})` attempted at the head of `s`: `\d{4}`
consumes exactly four digits, so this position matches only when the four
leading characters are digits and the fifth is `/` (a fifth digit makes the
attempt fail here; `re.search` then retries at later positions, which the
scan below reproduces). -/
def headMatchSlash (s : List Char) : Option (Nat × Nat × Nat) :=
  if (s.take 4).length = 4 && (s.take 4).all isPyDigit then
    match s.drop 4 with
    | c :: rest =>
      if c = '/' then
        match expectNum12 '/' rest with
        | some (m, r2) =>
          match takeNum12 r2 with
          | some d => some (charsToNat (s.take 4), m, d)
          | none => none
        | none => none
      else none
    | [] => none
  else none

/-- `(\d{4})年(\d{1,2})月(\d{1,2})日` attempted at the head of `s`. -/
def headMatchKanji (s : List Char) : Option (Nat × Nat × Nat) :=
  if (s.take 4).length = 4 && (s.take 4).all isPyDigit then
    match s.drop 4 with
    | c :: rest =>
      if c = '年' then
        match expectNum12 '月' rest with
        | some (m, r2) =>
          match expectNum12 '日' r2 with
          | some (d, _) => some (charsToNat (s.take 4), m, d)
          | none => none
        | none => none
      else none
    | [] => none
  else none

/-- The `datetime(year, month, day)` construction followed by `strftime`,
shared by all non-ISO branches: the formatted date on a valid triple, the
`ValueError` path otherwise. -/
def formatIfValid (y m d : Nat) : Option (List Char) :=
  if validDate y m d then some (fmtDate y m d) else none

/-- `DataNormalizer._normalize_date`, with `none` standing for the
`ValueError` paths (empty input, no recognized format, calendar-invalid
date). -/
def normalize_date (raw : List Char) : Option (List Char) :=
  if pyStrip raw = [] then none
  else
    match isoParse (pyStrip raw) with
    | some (y, m, d) => if validDate y m d then some (pyStrip raw) else none
    | none =>
      match scanFirst headMatchReiwa (pyStrip raw) with
      | some (n, m, d) => formatIfValid (2018 + n) m d
      | none =>
        match scanFirst headMatchR (pyStrip raw) with
        | some (n, m, d) => formatIfValid (2018 + n) m d
        | none =>
          match scanFirst headMatchSlash (pyStrip raw) with
          | some (y, m, d) => formatIfValid y m d
          | none =>
            match scanFirst headMatchKanji (pyStrip raw) with
            | some (y, m, d) => formatIfValid y m d
            | none => none

example : normalize_date "令和8年1月5日".toList = some "2026-01-05".toList := by decide
example : normalize_date "令和7年12月31日".toList = some "2025-12-31".toList := by decide
example : normalize_date "2026/01/05".toList = some "2026-01-05".toList := by decide
example : normalize_date "2024/3/15".toList = some "2024-03-15".toList := by decide
example : normalize_date "2026-01-05".toList = some "2026-01-05".toList := by decide
example : normalize_date "2026年1月5日".toList = some "2026-01-05".toList := by decide
example : normalize_date "R3.11/16".toList = some "2021-11-16".toList := by decide
example : normalize_date "invalid date".toList = none := by decide
example : normalize_date "".toList = none := by decide
example : normalize_date "2023-02-31".toList = none := by decide

/-! ## Claim C6: era-year mapping of `_normalize_date` -/

/-- The era text `令和N年M月D日` with decimal-rendered components. -/
def mkReiwaText (n m d : Nat) : List Char :=
  '令' :: '和' :: (natToChars n ++ '年' :: (natToChars m ++ '月' :: (natToChars d ++ ['日'])))

/-- The compact era text `RN.M/D` with decimal-rendered components. -/
def mkRText (n m d : Nat) : List Char :=
  'R' :: (natToChars n ++ '.' :: (natToChars m ++ '/' :: natToChars d))

theorem digit_ne {c c' : Char} (h : isPyDigit c = true)
    (h' : isPyDigit c' = false) : c ≠ c' := by
  intro e
  subst e
  rw [h] at h'
  exact Bool.noConfusion h'

theorem digitChar_not_space {d : Nat} (h : d < 10) :
    isPySpace (digitChar d) = false := by
  interval_cases d <;> rfl

theorem natToCharsAux_not_space :
    ∀ (fuel n : Nat), ∀ c ∈ natToCharsAux fuel n, isPySpace c = false := by
  intro fuel
  induction fuel with
  | zero => intro n c hc; simp [natToCharsAux] at hc
  | succ f ih =>
    intro n c hc
    cases n with
    | zero => simp [natToCharsAux] at hc
    | succ m =>
      rw [natToCharsAux] at hc
      rcases List.mem_append.mp hc with h | h
      · exact ih _ c h
      · simp at h
        subst h
        exact digitChar_not_space (Nat.mod_lt _ (by norm_num))

theorem natToChars_not_space (n : Nat) :
    ∀ c ∈ natToChars n, isPySpace c = false := by
  intro c hc
  cases n with
  | zero =>
    simp [natToChars] at hc
    subst hc; rfl
  | succ m =>
    rw [natToChars, if_neg (Nat.succ_ne_zero m)] at hc
    exact natToCharsAux_not_space _ _ c hc

theorem takeWhile_digits_append {xs : List Char}
    (hx : ∀ c ∈ xs, isPyDigit c = true) {y : Char} (hy : isPyDigit y = false)
    (rest : List Char) :
    (xs ++ y :: rest).takeWhile isPyDigit = xs ∧
    (xs ++ y :: rest).dropWhile isPyDigit = y :: rest := by
  induction xs with
  | nil => constructor <;> simp [List.takeWhile_cons, List.dropWhile_cons, hy]
  | cons x xs ih =>
    have hx1 : isPyDigit x = true := hx x (by simp)
    obtain ⟨ih1, ih2⟩ := ih (fun c hc => hx c (by simp [hc]))
    constructor
    · simp [List.takeWhile_cons, hx1, ih1]
    · simp [List.dropWhile_cons, hx1, ih2]

theorem takeWhile_all_digits {l : List Char} (h : ∀ c ∈ l, isPyDigit c = true) :
    l.takeWhile isPyDigit = l := by
  induction l with
  | nil => rfl
  | cons c cs ih =>
    simp [List.takeWhile_cons, h c (by simp), ih (fun x hx => h x (by simp [hx]))]

theorem isoParse_head_digit {t : List Char} {r : Nat × Nat × Nat}
    (h : isoParse t = some r) :
    ∃ a rest, t = a :: rest ∧ isPyDigit a = true := by
  unfold isoParse at h
  split at h
  · next a b c d h1 e f h2 g i =>
    split at h
    · next hcond =>
      simp only [Bool.and_eq_true] at hcond
      exact ⟨a, _, rfl, hcond.1.1.1.1.1.1.1.1.1⟩
    · exact Option.noConfusion h
  · exact Option.noConfusion h

theorem isoParse_eq_none {c : Char} (hc : isPyDigit c = false) (rest : List Char) :
    isoParse (c :: rest) = none := by
  cases h : isoParse (c :: rest) with
  | none => rfl
  | some r =>
    obtain ⟨a, rest', he, ha⟩ := isoParse_head_digit h
    rw [List.cons.injEq] at he
    rw [he.1] at hc
    rw [ha] at hc
    exact Bool.noConfusion hc

theorem headMatchReiwa_none {c : Char} (hc : c ≠ '令') (cs : List Char) :
    headMatchReiwa (c :: cs) = none := by
  cases cs with
  | nil => rfl
  | cons c2 rest => simp [headMatchReiwa, hc]

theorem scanFirst_reiwa_none {t : List Char} (h : ∀ c ∈ t, c ≠ '令') :
    scanFirst headMatchReiwa t = none := by
  induction t with
  | nil => rfl
  | cons c cs ih =>
    simp only [scanFirst, headMatchReiwa_none (h c (by simp)) cs]
    exact ih (fun x hx => h x (by simp [hx]))

theorem scanFirst_of_head {α : Type} (f : List Char → Option α) (c : Char)
    (cs : List Char) (r : α) (h : f (c :: cs) = some r) :
    scanFirst f (c :: cs) = some r := by
  simp only [scanFirst, h]

theorem expectNum_render (n : Nat) {marker : Char} (hm : isPyDigit marker = false)
    (rest : List Char) :
    expectNum marker (natToChars n ++ marker :: rest) = some (n, rest) := by
  obtain ⟨ht, hd⟩ := takeWhile_digits_append (natToChars_all_digit n) hm rest
  rw [expectNum, ht, hd, if_neg (natToChars_ne_nil n)]
  simp [charsToNat_natToChars]

theorem expectNum12_render {n : Nat} (hn : n ≤ 99) {marker : Char}
    (hm : isPyDigit marker = false) (rest : List Char) :
    expectNum12 marker (natToChars n ++ marker :: rest) = some (n, rest) := by
  obtain ⟨ht, hd⟩ := takeWhile_digits_append (natToChars_all_digit n) hm rest
  have hlen1 : 1 ≤ (natToChars n).length := natToChars_len_pos n
  have hlen2 : (natToChars n).length ≤ 2 :=
    natToChars_len_le (by norm_num) (by omega)
  rw [expectNum12, ht, hd]
  rw [if_neg (by
    simp only [Bool.or_eq_true, decide_eq_true_eq]
    omega)]
  simp [charsToNat_natToChars]

theorem takeNum12_render {d : Nat} (hd : d ≤ 99) :
    takeNum12 (natToChars d) = some d := by
  have ht : (natToChars d).takeWhile isPyDigit = natToChars d :=
    takeWhile_all_digits (natToChars_all_digit d)
  have hlen2 : (natToChars d).length ≤ 2 :=
    natToChars_len_le (by norm_num) (by omega)
  rw [takeNum12, ht, if_neg (natToChars_ne_nil d)]
  rw [List.take_of_length_le hlen2, charsToNat_natToChars]

theorem headMatchReiwa_render (n m d : Nat) :
    headMatchReiwa (mkReiwaText n m d) = some (n, m, d) := by
  have e1 := expectNum_render n (show isPyDigit '年' = false from by decide)
    (natToChars m ++ '月' :: (natToChars d ++ ['日']))
  have e2 := expectNum_render m (show isPyDigit '月' = false from by decide)
    (natToChars d ++ ['日'])
  have e3 := expectNum_render d (show isPyDigit '日' = false from by decide) []
  simp [mkReiwaText, headMatchReiwa, e1, e2, e3]

theorem headMatchR_render {n m d : Nat} (hn : n ≤ 99) (hm : m ≤ 99) (hd : d ≤ 99) :
    headMatchR (mkRText n m d) = some (n, m, d) := by
  have e1 := expectNum12_render hn (show isPyDigit '.' = false from by decide)
    (natToChars m ++ '/' :: natToChars d)
  have e2 := expectNum12_render hm (show isPyDigit '/' = false from by decide)
    (natToChars d)
  have e3 := takeNum12_render hd
  simp [mkRText, headMatchR, e1, e2, e3]

theorem mkReiwaText_no_space (n m d : Nat) :
    ∀ c ∈ mkReiwaText n m d, isPySpace c = false := by
  intro c hc
  simp only [mkReiwaText, List.mem_cons, List.mem_append] at hc
  rcases hc with rfl | rfl | hc | rfl | hc | rfl | hc | rfl | h0
  · rfl
  · rfl
  · exact natToChars_not_space _ c hc
  · rfl
  · exact natToChars_not_space _ c hc
  · rfl
  · exact natToChars_not_space _ c hc
  · rfl
  · cases h0

theorem mkRText_no_space (n m d : Nat) :
    ∀ c ∈ mkRText n m d, isPySpace c = false := by
  intro c hc
  simp only [mkRText, List.mem_cons, List.mem_append] at hc
  rcases hc with rfl | hc | rfl | hc | rfl | hc <;>
    first
      | rfl
      | exact natToChars_not_space _ c hc

theorem mkRText_no_reiwa (n m d : Nat) : ∀ c ∈ mkRText n m d, c ≠ '令' := by
  intro c hc
  simp only [mkRText, List.mem_cons, List.mem_append] at hc
  rcases hc with rfl | hc | rfl | hc | rfl | hc <;>
    first
      | decide
      | exact digit_ne (natToChars_all_digit _ c hc) (by decide)

theorem daysInMonth_le (y m : Nat) : daysInMonth y m ≤ 31 := by
  unfold daysInMonth
  split_ifs <;> norm_num

theorem validDate_bounds {y m d : Nat} (h : validDate y m d = true) :
    1 ≤ y ∧ y ≤ 9999 ∧ 1 ≤ m ∧ m ≤ 12 ∧ 1 ≤ d ∧ d ≤ 31 := by
  have hd31 := daysInMonth_le y m
  unfold validDate at h
  simp only [Bool.and_eq_true, decide_eq_true_eq] at h
  omega

theorem normalize_date_eq_reiwa {raw : List Char} {n m d : Nat}
    (hne : pyStrip raw ≠ []) (hiso : isoParse (pyStrip raw) = none)
    (h : scanFirst headMatchReiwa (pyStrip raw) = some (n, m, d)) :
    normalize_date raw = formatIfValid (2018 + n) m d := by
  rw [normalize_date, if_neg hne, hiso, h]

theorem normalize_date_eq_R {raw : List Char} {n m d : Nat}
    (hne : pyStrip raw ≠ []) (hiso : isoParse (pyStrip raw) = none)
    (h1 : scanFirst headMatchReiwa (pyStrip raw) = none)
    (h2 : scanFirst headMatchR (pyStrip raw) = some (n, m, d)) :
    normalize_date raw = formatIfValid (2018 + n) m d := by
  rw [normalize_date, if_neg hne, hiso, h1, h2]

/-- Claim C6: `_normalize_date` maps era year `N` to Gregorian year
`2018 + N` (that is, `era_base_year − 1 + N` with `era_base_year = 2019`) for
both the `令和N年M月D日` form and the compact `RN.M/D` form, and in particular
`令和8年1月5日` normalizes to `2026-01-05`.  (`n ≤ 99` reflects the two-digit
group of the compact form.) -/
theorem C6_date_era_year_mapping (n m d : Nat) (hn : n ≤ 99)
    (hv : validDate (2018 + n) m d = true) :
    normalize_date (mkReiwaText n m d) = some (fmtDate (2018 + n) m d) ∧
    normalize_date (mkRText n m d) = some (fmtDate (2018 + n) m d) ∧
    normalize_date "令和8年1月5日".toList = some "2026-01-05".toList := by
  obtain ⟨_, _, hm1, hm12, hd1, hd31⟩ := validDate_bounds hv
  refine ⟨?_, ?_, by decide⟩
  · have h1 : pyStrip (mkReiwaText n m d) = mkReiwaText n m d :=
      pyStrip_of_no_space (mkReiwaText_no_space n m d)
    have hne : pyStrip (mkReiwaText n m d) ≠ [] := by
      rw [h1]; simp [mkReiwaText]
    have hiso : isoParse (pyStrip (mkReiwaText n m d)) = none := by
      rw [h1]; exact isoParse_eq_none (by decide) _
    have hsc : scanFirst headMatchReiwa (pyStrip (mkReiwaText n m d)) = some (n, m, d) := by
      rw [h1]
      exact scanFirst_of_head _ _ _ _ (headMatchReiwa_render n m d)
    rw [normalize_date_eq_reiwa hne hiso hsc, formatIfValid, if_pos hv]
  · have h1 : pyStrip (mkRText n m d) = mkRText n m d :=
      pyStrip_of_no_space (mkRText_no_space n m d)
    have hne : pyStrip (mkRText n m d) ≠ [] := by
      rw [h1]; simp [mkRText]
    have hiso : isoParse (pyStrip (mkRText n m d)) = none := by
      rw [h1]; exact isoParse_eq_none (by decide) _
    have hrei : scanFirst headMatchReiwa (pyStrip (mkRText n m d)) = none := by
      rw [h1]; exact scanFirst_reiwa_none (mkRText_no_reiwa n m d)
    have hsc : scanFirst headMatchR (pyStrip (mkRText n m d)) = some (n, m, d) := by
      rw [h1]
      exact scanFirst_of_head _ _ _ _
        (headMatchR_render hn (by omega) (by omega))
    rw [normalize_date_eq_R hne hiso hrei hsc, formatIfValid, if_pos hv]

/-- Witness for `C6_date_era_year_mapping` at era year 8, month 1, day 5. -/
theorem C6_date_era_year_mapping_witness :
    (8 ≤ 99 ∧ validDate (2018 + 8) 1 5 = true) ∧
    (normalize_date (mkReiwaText 8 1 5) = some (fmtDate (2018 + 8) 1 5) ∧
      normalize_date (mkRText 8 1 5) = some (fmtDate (2018 + 8) 1 5) ∧
      normalize_date "令和8年1月5日".toList = some "2026-01-05".toList) :=
  ⟨⟨by decide, by decide⟩, C6_date_era_year_mapping 8 1 5 (by decide) (by decide)⟩

/-! ## Claim C7: failure characterization of `_normalize_date` -/

/-- Companion definition following the specification's wording: the
priority-ordered format recognition of `_normalize_date`, without the
calendar-validity check, yielding the (year, month, day) triple the first
matching format denotes.  Compared against `normalize_date` in the theorem
below. -/
def recognizeDate (t : List Char) : Option (Nat × Nat × Nat) :=
  match isoParse t with
  | some r => some r
  | none =>
    match scanFirst headMatchReiwa t with
    | some (n, m, d) => some (2018 + n, m, d)
    | none =>
      match scanFirst headMatchR t with
      | some (n, m, d) => some (2018 + n, m, d)
      | none =>
        match scanFirst headMatchSlash t with
        | some r => some r
        | none => scanFirst headMatchKanji t

/-- An ISO-format calendar-date string: year, month, day groups separated by
hyphens (month and day zero-padded to two digits) denoting a constructible
calendar date. -/
def isIsoLikeB (t : List Char) : Bool :=
  match hyphenSplit t with
  | [ys, ms, ds] =>
    (!ys.isEmpty) && ys.all isPyDigit && ms.length = 2 && ms.all isPyDigit &&
      ds.length = 2 && ds.all isPyDigit &&
      validDate (charsToNat ys) (charsToNat ms) (charsToNat ds)
  | _ => false

theorem natToChars_len_eq_one {n : Nat} (h : n < 10) :
    (natToChars n).length = 1 :=
  le_antisymm (natToChars_len_le le_rfl (by simpa using h)) (natToChars_len_pos n)

theorem natToChars_len_ge_two {n : Nat} (h : 10 ≤ n) :
    2 ≤ (natToChars n).length := by
  cases n with
  | zero => omega
  | succ m =>
    rw [natToChars, if_neg (Nat.succ_ne_zero m), natToCharsAux]
    rw [List.length_append]
    have h1 : natToCharsAux m ((m + 1) / 10) ≠ [] :=
      natToCharsAux_ne_nil (by omega) (by omega)
    have h2 := List.length_pos.mpr h1
    simp only [List.length_singleton]
    omega

theorem pad2_length {n : Nat} (h : n ≤ 99) : (pad2 n).length = 2 := by
  rw [pad2]
  by_cases h10 : n < 10
  · rw [if_pos h10]
    simp [natToChars_len_eq_one h10]
  · rw [if_neg h10]
    have h2 : (natToChars n).length ≤ 2 :=
      natToChars_len_le (by norm_num) (by omega)
    have h1 := natToChars_len_ge_two (by omega : 10 ≤ n)
    omega

theorem pad2_all_digit (n : Nat) : ∀ c ∈ pad2 n, isPyDigit c = true := by
  intro c hc
  rw [pad2] at hc
  by_cases h10 : n < 10
  · rw [if_pos h10] at hc
    rcases List.mem_cons.mp hc with rfl | hc
    · rfl
    · exact natToChars_all_digit n c hc
  · rw [if_neg h10] at hc
    exact natToChars_all_digit n c hc

theorem charsToNat_pad2 (n : Nat) : charsToNat (pad2 n) = n := by
  rw [pad2]
  by_cases h10 : n < 10
  · rw [if_pos h10]
    have key : charsToNat ('0' :: natToChars n) = charsToNat (natToChars n) := rfl
    rw [key, charsToNat_natToChars]
  · rw [if_neg h10, charsToNat_natToChars]

theorem hyphenSplit_fmtDate (y m d : Nat) :
    hyphenSplit (fmtDate y m d) = [natToChars y, pad2 m, pad2 d] := by
  rw [fmtDate]
  exact hyphenSplit_three
    (fun c hc => digit_ne (natToChars_all_digit y c hc) (by decide))
    (fun c hc => digit_ne (pad2_all_digit m c hc) (by decide))
    (fun c hc => digit_ne (pad2_all_digit d c hc) (by decide))

theorem isIsoLikeB_fmtDate {y m d : Nat} (hv : validDate y m d = true) :
    isIsoLikeB (fmtDate y m d) = true := by
  obtain ⟨_, _, hm1, hm12, hd1, hd31⟩ := validDate_bounds hv
  rw [isIsoLikeB.eq_def, hyphenSplit_fmtDate]
  simp only [Bool.and_eq_true, decide_eq_true_eq]
  refine ⟨⟨⟨⟨⟨⟨?_, ?_⟩, ?_⟩, ?_⟩, ?_⟩, ?_⟩, ?_⟩
  · cases h : natToChars y with
    | nil => exact absurd h (natToChars_ne_nil y)
    | cons a l => rfl
  · exact List.all_eq_true.mpr fun c hc => natToChars_all_digit y c hc
  · exact pad2_length (by omega)
  · exact List.all_eq_true.mpr fun c hc => pad2_all_digit m c hc
  · exact pad2_length (by omega)
  · exact List.all_eq_true.mpr fun c hc => pad2_all_digit d c hc
  · rw [charsToNat_natToChars, charsToNat_pad2, charsToNat_pad2]
    exact hv

theorem isoParse_shape {t : List Char} {y m d : Nat}
    (h : isoParse t = some (y, m, d)) :
    ∃ a b c d4 e f g i, t = [a, b, c, d4, '-', e, f, '-', g, i] ∧
      isPyDigit a = true ∧ isPyDigit b = true ∧ isPyDigit c = true ∧
      isPyDigit d4 = true ∧ isPyDigit e = true ∧ isPyDigit f = true ∧
      isPyDigit g = true ∧ isPyDigit i = true ∧
      y = charsToNat [a, b, c, d4] ∧ m = charsToNat [e, f] ∧
      d = charsToNat [g, i] := by
  unfold isoParse at h
  split at h
  · next a b c d4 h1 e f h2 g i =>
    split at h
    · next hcond =>
      simp only [Bool.and_eq_true, decide_eq_true_eq] at hcond
      obtain ⟨⟨⟨⟨⟨⟨⟨⟨⟨ha, hb⟩, hc⟩, hd4⟩, hh1⟩, he⟩, hf⟩, hh2⟩, hg⟩, hi⟩ := hcond
      injection h with h
      rw [Prod.mk.injEq, Prod.mk.injEq] at h
      obtain ⟨hy, hm, hd⟩ := h
      subst hh1
      subst hh2
      exact ⟨a, b, c, d4, e, f, g, i, rfl, ha, hb, hc, hd4, he, hf, hg, hi,
        hy.symm, hm.symm, hd.symm⟩
    · exact Option.noConfusion h
  · exact Option.noConfusion h

theorem isIsoLikeB_of_isoParse {t : List Char} {y m d : Nat}
    (h : isoParse t = some (y, m, d)) (hv : validDate y m d = true) :
    isIsoLikeB t = true := by
  obtain ⟨a, b, c, d4, e, f, g, i, hshape, ha, hb, hc, hd4, he, hf, hg, hi,
    hy, hm, hd⟩ := isoParse_shape h
  subst hshape
  have e1 : ([a, b, c, d4, '-', e, f, '-', g, i] : List Char) =
      [a, b, c, d4] ++ '-' :: ([e, f] ++ '-' :: [g, i]) := by simp
  have hs : hyphenSplit [a, b, c, d4, '-', e, f, '-', g, i] =
      [[a, b, c, d4], [e, f], [g, i]] := by
    rw [e1]
    refine hyphenSplit_three ?_ ?_ ?_
    · intro x hx
      simp only [List.mem_cons, List.not_mem_nil, or_false] at hx
      rcases hx with rfl | rfl | rfl | rfl
      · exact isPyDigit_ne_hyphen ha
      · exact isPyDigit_ne_hyphen hb
      · exact isPyDigit_ne_hyphen hc
      · exact isPyDigit_ne_hyphen hd4
    · intro x hx
      simp only [List.mem_cons, List.not_mem_nil, or_false] at hx
      rcases hx with rfl | rfl
      · exact isPyDigit_ne_hyphen he
      · exact isPyDigit_ne_hyphen hf
    · intro x hx
      simp only [List.mem_cons, List.not_mem_nil, or_false] at hx
      rcases hx with rfl | rfl
      · exact isPyDigit_ne_hyphen hg
      · exact isPyDigit_ne_hyphen hi
  rw [isIsoLikeB.eq_def, hs]
  simp only [Bool.and_eq_true, decide_eq_true_eq]
  subst hy; subst hm; subst hd
  refine ⟨⟨⟨⟨⟨⟨?_, ?_⟩, ?_⟩, ?_⟩, ?_⟩, ?_⟩, ?_⟩
  · rfl
  · simp [ha, hb, hc, hd4]
  · rfl
  · simp [he, hf]
  · rfl
  · simp [hg, hi]
  · exact hv

theorem C7_core {raw out : List Char} {Y M D : Nat}
    (hnd : normalize_date raw = (if validDate Y M D = true then some out else none))
    (hrec : recognizeDate (pyStrip raw) = some (Y, M, D))
    (hne : pyStrip raw ≠ [])
    (hshape : validDate Y M D = true → isIsoLikeB out = true) :
    ((normalize_date raw = none) ↔
      (pyStrip raw = [] ∨ recognizeDate (pyStrip raw) = none ∨
        ∃ y m d, recognizeDate (pyStrip raw) = some (y, m, d) ∧
          validDate y m d = false)) ∧
    (∀ t, normalize_date raw = some t → isIsoLikeB t = true) := by
  by_cases hv : validDate Y M D = true
  · constructor
    · rw [hnd, if_pos hv]
      constructor
      · intro h; exact Option.noConfusion h
      · rintro (h | h | ⟨y', m', d', h1, h2⟩)
        · exact absurd h hne
        · rw [hrec] at h; exact Option.noConfusion h
        · rw [hrec] at h1
          injection h1 with h1
          rw [Prod.mk.injEq, Prod.mk.injEq] at h1
          obtain ⟨rfl, rfl, rfl⟩ := h1
          rw [hv] at h2
          exact Bool.noConfusion h2
    · intro t ht
      rw [hnd, if_pos hv] at ht
      injection ht with ht
      rw [← ht]
      exact hshape hv
  · have hv' : validDate Y M D = false := by
      cases hb : validDate Y M D
      · rfl
      · exact absurd hb hv
    constructor
    · constructor
      · intro _
        exact Or.inr (Or.inr ⟨Y, M, D, hrec, hv'⟩)
      · intro _
        rw [hnd, if_neg hv]
    · intro t ht
      rw [hnd, if_neg hv] at ht
      exact Option.noConfusion ht

/-- Claim C7: `_normalize_date` fails exactly when the stripped input is
empty, when no recognized format matches, or when the first matching format
denotes a calendar-invalid date (every branch, the already-ISO branch
included, validating by calendar construction); on success the result is an
ISO year-month-day string of a constructible calendar date. -/
theorem C7_date_failure_characterization (raw : List Char) :
    ((normalize_date raw = none) ↔
      (pyStrip raw = [] ∨ recognizeDate (pyStrip raw) = none ∨
        ∃ y m d, recognizeDate (pyStrip raw) = some (y, m, d) ∧
          validDate y m d = false)) ∧
    (∀ t, normalize_date raw = some t → isIsoLikeB t = true) := by
  by_cases hne : pyStrip raw = []
  · constructor
    · constructor
      · intro _; exact Or.inl hne
      · intro _; rw [normalize_date, if_pos hne]
    · intro t ht
      rw [normalize_date, if_pos hne] at ht
      exact Option.noConfusion ht
  · rcases hiso : isoParse (pyStrip raw) with _ | ⟨y, m, d⟩
    · rcases h1 : scanFirst headMatchReiwa (pyStrip raw) with _ | ⟨n, m, d⟩
      · rcases h2 : scanFirst headMatchR (pyStrip raw) with _ | ⟨n, m, d⟩
        · rcases h3 : scanFirst headMatchSlash (pyStrip raw) with _ | ⟨yy, mm, dd⟩
          · rcases h4 : scanFirst headMatchKanji (pyStrip raw) with _ | ⟨yy, mm, dd⟩
            · have hnd : normalize_date raw = none := by
                rw [normalize_date, if_neg hne, hiso, h1, h2, h3, h4]
              have hrec : recognizeDate (pyStrip raw) = none := by
                rw [recognizeDate, hiso, h1, h2, h3, h4]
              constructor
              · constructor
                · intro _; exact Or.inr (Or.inl hrec)
                · intro _; exact hnd
              · intro t ht
                rw [hnd] at ht
                exact Option.noConfusion ht
            · have hnd : normalize_date raw =
                  (if validDate yy mm dd = true then some (fmtDate yy mm dd)
                    else none) := by
                rw [normalize_date, if_neg hne, hiso, h1, h2, h3, h4]
                rfl
              have hrec : recognizeDate (pyStrip raw) = some (yy, mm, dd) := by
                rw [recognizeDate, hiso, h1, h2, h3, h4]
              exact C7_core hnd hrec hne (fun hv => isIsoLikeB_fmtDate hv)
          · have hnd : normalize_date raw =
                (if validDate yy mm dd = true then some (fmtDate yy mm dd)
                  else none) := by
              rw [normalize_date, if_neg hne, hiso, h1, h2, h3]
              rfl
            have hrec : recognizeDate (pyStrip raw) = some (yy, mm, dd) := by
              rw [recognizeDate, hiso, h1, h2, h3]
            exact C7_core hnd hrec hne (fun hv => isIsoLikeB_fmtDate hv)
        · have hnd : normalize_date raw =
              (if validDate (2018 + n) m d = true then
                some (fmtDate (2018 + n) m d) else none) := by
            rw [normalize_date, if_neg hne, hiso, h1, h2]
            rfl
          have hrec : recognizeDate (pyStrip raw) = some (2018 + n, m, d) := by
            rw [recognizeDate, hiso, h1, h2]
          exact C7_core hnd hrec hne (fun hv => isIsoLikeB_fmtDate hv)
      · have hnd : normalize_date raw =
            (if validDate (2018 + n) m d = true then
              some (fmtDate (2018 + n) m d) else none) := by
          rw [normalize_date, if_neg hne, hiso, h1]
          rfl
        have hrec : recognizeDate (pyStrip raw) = some (2018 + n, m, d) := by
          rw [recognizeDate, hiso, h1]
        exact C7_core hnd hrec hne (fun hv => isIsoLikeB_fmtDate hv)
    · have hnd : normalize_date raw =
          (if validDate y m d = true then some (pyStrip raw) else none) := by
        rw [normalize_date, if_neg hne, hiso]
      have hrec : recognizeDate (pyStrip raw) = some (y, m, d) := by
        rw [recognizeDate, hiso]
      exact C7_core hnd hrec hne (fun hv => isIsoLikeB_of_isoParse hiso hv)

/-- Witness for `C7_date_failure_characterization`: the empty input fails,
and a successful normalization (of `"2026/1/5"`) yields an ISO calendar-date
string. -/
theorem C7_date_failure_characterization_witness :
    normalize_date "".toList = none ∧
    isIsoLikeB "2026-01-05".toList = true :=
  ⟨(C7_date_failure_characterization "".toList).1.mpr (Or.inl (by decide)),
    (C7_date_failure_characterization "2026/1/5".toList).2
      "2026-01-05".toList (by decide)⟩

/-! ## Canonical records and the diff engine (`DiffDetector`) -/

/-- `AnimalData` (`models.py`): the canonical record.  The shelter date is
kept as its ISO string and URLs as strings — the diff engine compares all of
them by equality only. -/
structure AnimalData where
  species : String
  sex : String
  age_months : Option Nat
  color : Option String
  size : Option String
  shelter_date : String
  location : Option String
  phone : Option String
  image_urls : List String
  source_url : String
deriving DecidableEq, Repr

/-- `DiffResult` (`diff_detector.py`). -/
structure DiffResult where
  new : List AnimalData
  updated : List AnimalData
  deleted_candidates : List String
deriving DecidableEq, Repr

/-- `DiffDetector._animals_equal`: field-by-field comparison, the image URL
sequence compared in order and the source URL by string equality. -/
def animals_equal (a b : AnimalData) : Bool :=
  a.species = b.species && a.sex = b.sex && a.age_months = b.age_months &&
    a.color = b.color && a.size = b.size && a.shelter_date = b.shelter_date &&
    a.location = b.location && a.phone = b.phone &&
    a.image_urls = b.image_urls && a.source_url = b.source_url

/-- Key order of a Python dict built by one insertion pass: first-occurrence
order, duplicates dropped. -/
def pyKeys : List String → List String
  | [] => []
  | k :: ks => k :: (pyKeys ks).filter (fun x => x ≠ k)

/-- Keys of `{str(animal.source_url): animal for animal in l}`. -/
def dictKeys (l : List AnimalData) : List String :=
  pyKeys (l.map (fun a => a.source_url))

/-- Lookup in that dict: for a repeated key the last insertion wins. -/
def dictGet (l : List AnimalData) (k : String) : Option AnimalData :=
  l.reverse.find? (fun a => a.source_url = k)

/-- `DiffDetector.detect_diff`, the previous snapshot passed explicitly
(the source loads it from its snapshot store).  The source's single loop
appends to `new` and `updated`; as the appends target different lists, it is
expressed here as two passes over the same key order. -/
def detect_diff (current previous : List AnimalData) : DiffResult :=
  { new := (dictKeys current).filterMap (fun url =>
      if url ∈ dictKeys previous then none else dictGet current url)
    updated := (dictKeys current).filterMap (fun url =>
      if url ∈ dictKeys previous then
        match dictGet current url, dictGet previous url with
        | some a, some b => if animals_equal a b then none else some a
        | _, _ => none
      else none)
    deleted_candidates := (dictKeys previous).filter
      (fun url => url ∉ dictKeys current) }

theorem mem_pyKeys {x : String} : ∀ {l : List String}, x ∈ pyKeys l ↔ x ∈ l := by
  intro l
  induction l with
  | nil => simp [pyKeys]
  | cons k ks ih =>
    rw [pyKeys]
    constructor
    · intro h
      rcases List.mem_cons.mp h with rfl | h
      · exact List.mem_cons_self _ _
      · exact List.mem_cons_of_mem _ (ih.mp (List.mem_filter.mp h).1)
    · intro h
      rcases List.mem_cons.mp h with rfl | h
      · exact List.mem_cons_self _ _
      · by_cases hx : x = k
        · subst hx; exact List.mem_cons_self _ _
        · exact List.mem_cons_of_mem _
            (List.mem_filter.mpr ⟨ih.mpr h, by simp [hx]⟩)

theorem mem_dictKeys {l : List AnimalData} {x : String} :
    x ∈ dictKeys l ↔ ∃ a ∈ l, a.source_url = x := by
  rw [dictKeys, mem_pyKeys]
  exact List.mem_map.trans (by simp)

theorem dictGet_key {l : List AnimalData} {k : String} {a : AnimalData}
    (h : dictGet l k = some a) : a.source_url = k := by
  have := List.find?_some h
  simpa using this

theorem dictGet_isSome {l : List AnimalData} {k : String} :
    (dictGet l k).isSome = true ↔ k ∈ dictKeys l := by
  rw [dictGet, List.find?_isSome, mem_dictKeys]
  simp [List.mem_reverse]

/-- Claim C3: in `detect_diff`, an identifier is classified new exactly when
it is a current key absent from the previous keys; classified updated exactly
when both dictionaries hold it and `animals_equal` rejects the pair (at least
one compared field differs); classified delete-candidate exactly when it is a
previous key absent from the current keys; identifiers whose records are
field-equal appear in none of the three lists; and no identifier occurs in
more than one bucket. -/
theorem C3_diff_classification (current previous : List AnimalData) :
    (∀ url, url ∈ (detect_diff current previous).new.map (fun a => a.source_url) ↔
      (url ∈ dictKeys current ∧ url ∉ dictKeys previous)) ∧
    (∀ url, url ∈ (detect_diff current previous).updated.map (fun a => a.source_url) ↔
      (∃ a b, dictGet current url = some a ∧ dictGet previous url = some b ∧
        animals_equal a b = false)) ∧
    (∀ url, url ∈ (detect_diff current previous).deleted_candidates ↔
      (url ∈ dictKeys previous ∧ url ∉ dictKeys current)) ∧
    (∀ url a b, dictGet current url = some a → dictGet previous url = some b →
      animals_equal a b = true →
      url ∉ (detect_diff current previous).new.map (fun a => a.source_url) ∧
      url ∉ (detect_diff current previous).updated.map (fun a => a.source_url) ∧
      url ∉ (detect_diff current previous).deleted_candidates) ∧
    (∀ url,
      ¬(url ∈ (detect_diff current previous).new.map (fun a => a.source_url) ∧
        url ∈ (detect_diff current previous).updated.map (fun a => a.source_url)) ∧
      ¬(url ∈ (detect_diff current previous).new.map (fun a => a.source_url) ∧
        url ∈ (detect_diff current previous).deleted_candidates) ∧
      ¬(url ∈ (detect_diff current previous).updated.map (fun a => a.source_url) ∧
        url ∈ (detect_diff current previous).deleted_candidates)) := by
  have hnew : ∀ url,
      url ∈ (detect_diff current previous).new.map (fun a => a.source_url) ↔
        (url ∈ dictKeys current ∧ url ∉ dictKeys previous) := by
    intro url
    simp only [detect_diff, List.mem_map, List.mem_filterMap]
    constructor
    · rintro ⟨a, ⟨u, hu, hfa⟩, rfl⟩
      by_cases hp : u ∈ dictKeys previous
      · rw [if_pos hp] at hfa; exact Option.noConfusion hfa
      · rw [if_neg hp] at hfa
        rw [dictGet_key hfa]
        exact ⟨hu, hp⟩
    · rintro ⟨hc, hp⟩
      obtain ⟨a, ha⟩ := Option.isSome_iff_exists.mp (dictGet_isSome.mpr hc)
      exact ⟨a, ⟨url, hc, by rw [if_neg hp, ha]⟩, dictGet_key ha⟩
  have hupd : ∀ url,
      url ∈ (detect_diff current previous).updated.map (fun a => a.source_url) ↔
        (∃ a b, dictGet current url = some a ∧ dictGet previous url = some b ∧
          animals_equal a b = false) := by
    intro url
    simp only [detect_diff, List.mem_map, List.mem_filterMap]
    constructor
    · rintro ⟨a, ⟨u, hu, hfa⟩, rfl⟩
      by_cases hp : u ∈ dictKeys previous
      · rw [if_pos hp] at hfa
        rcases hga : dictGet current u with _ | a'
        · rw [hga] at hfa; exact Option.noConfusion hfa
        · rcases hgb : dictGet previous u with _ | b'
          · rw [hga, hgb] at hfa; exact Option.noConfusion hfa
          · rw [hga, hgb] at hfa
            have hfa' : (if animals_equal a' b' = true then none else some a') =
                some a := hfa
            by_cases he : animals_equal a' b' = true
            · rw [if_pos he] at hfa'; exact Option.noConfusion hfa'
            · rw [if_neg he] at hfa'
              injection hfa' with e
              subst e
              rw [dictGet_key hga]
              exact ⟨a', b', hga, hgb, Bool.eq_false_iff.mpr he⟩
      · rw [if_neg hp] at hfa; exact Option.noConfusion hfa
    · rintro ⟨a, b, hga, hgb, heq⟩
      have hc : url ∈ dictKeys current := dictGet_isSome.mp (by rw [hga]; rfl)
      have hp : url ∈ dictKeys previous := dictGet_isSome.mp (by rw [hgb]; rfl)
      refine ⟨a, ⟨url, hc, ?_⟩, dictGet_key hga⟩
      rw [if_pos hp, hga, hgb]
      show (if animals_equal a b = true then none else some a) = some a
      rw [heq]
      simp
  have hdel : ∀ url,
      url ∈ (detect_diff current previous).deleted_candidates ↔
        (url ∈ dictKeys previous ∧ url ∉ dictKeys current) := by
    intro url
    simp only [detect_diff, List.mem_filter, decide_eq_true_eq]
  refine ⟨hnew, hupd, hdel, ?_, ?_⟩
  · intro url a b hga hgb heq
    refine ⟨?_, ?_, ?_⟩
    · intro hmem
      exact ((hnew url).mp hmem).2 (dictGet_isSome.mp (by rw [hgb]; rfl))
    · intro hmem
      obtain ⟨a', b', hga', hgb', hne⟩ := (hupd url).mp hmem
      rw [hga] at hga'; injection hga' with e; subst e
      rw [hgb] at hgb'; injection hgb' with e; subst e
      rw [heq] at hne
      exact Bool.noConfusion hne
    · intro hmem
      exact ((hdel url).mp hmem).2 (dictGet_isSome.mp (by rw [hga]; rfl))
  · intro url
    refine ⟨?_, ?_, ?_⟩
    · rintro ⟨h1, h2⟩
      obtain ⟨_, hp⟩ := (hnew url).mp h1
      obtain ⟨a, b, _, hgb, _⟩ := (hupd url).mp h2
      exact hp (dictGet_isSome.mp (by rw [hgb]; rfl))
    · rintro ⟨h1, h2⟩
      exact ((hnew url).mp h1).2 ((hdel url).mp h2).1
    · rintro ⟨h1, h2⟩
      obtain ⟨a, b, hga, _, _⟩ := (hupd url).mp h1
      exact ((hdel url).mp h2).2 (dictGet_isSome.mp (by rw [hga]; rfl))

/-- A concrete canonical record, matching the example of `models.py`. -/
def sampleAnimal : AnimalData :=
  { species := "犬", sex := "男の子", age_months := some 24,
    color := some "茶色", size := some "中型", shelter_date := "2026-01-05",
    location := some "高知県動物愛護センター", phone := some "088-123-4567",
    image_urls := ["https://example.com/image1.jpg"],
    source_url := "https://example-kochi.jp/animals/123" }

/-- Witness for `C3_diff_classification`: with an empty previous snapshot,
the sample record's identifier is classified new. -/
theorem C3_diff_classification_witness :
    "https://example-kochi.jp/animals/123" ∈
      (detect_diff [sampleAnimal] []).new.map (fun a => a.source_url) :=
  ((C3_diff_classification [sampleAnimal] []).1
      "https://example-kochi.jp/animals/123").mpr ⟨by decide, by decide⟩

/-! ## Run orchestrator (`CollectorService`) -/

/-- The exception taxonomy the orchestrator dispatches on
(`municipality_adapter.py` defines `NetworkError` and `ParsingError`, both
direct subclasses of `Exception`); `other` stands for any other exception.
Each carries its message (`str(e)`). -/
inductive CollectErr where
  | network (msg : String)
  | parsing (msg : String)
  | other (msg : String)
deriving DecidableEq, Repr

/-- `str(e)` of a dispatched exception. -/
def CollectErr.msg : CollectErr → String
  | .network m => m
  | .parsing m => m
  | .other m => m

/-- The orchestrator's collaborators as one environment.  `fetch_animal_list`
is indexed by the number of calls already made, modelling an external site
whose responses may change between retry attempts; `extract_animal_details`
and `normalizeRaw` are the per-detail-page steps (`Raw` is the adapter's
raw-record type); `load_snapshot` is `SnapshotStore.load_snapshot` as
`DiffDetector.detect_diff` calls it. -/
structure RunEnv (Raw : Type) where
  lockExists : Bool
  fetch_animal_list : Nat → Except CollectErr (List String)
  extract_animal_details : String → Except CollectErr Raw
  normalizeRaw : Raw → Except CollectErr AnimalData
  load_snapshot : Except CollectErr (List AnimalData)

/-- Outcome of `_collect_with_retry` together with its observable effects:
how many times the listing was fetched, which backoff sleeps were performed
(in seconds, in order), and whether the structure-changed flag was set. -/
structure CollectOutcome where
  result : Except CollectErr (List AnimalData)
  attempts : Nat
  sleeps : List Nat
  structureChanged : Bool

/-- One detail page processed at the per-item boundary of
`_collect_with_retry`: the `except NetworkError` arm and the blanket
`except Exception` arm both skip the record, so any failure of the extract
or normalize step — a `ParsingError` included — yields `none`. -/
def detailRecord {Raw : Type} (env : RunEnv Raw) (url : String) :
    Option AnimalData :=
  match env.extract_animal_details url with
  | .error _ => none
  | .ok raw =>
    match env.normalizeRaw raw with
    | .error _ => none
    | .ok a => some a

/-- Whether a detail page yields a record. -/
def detailOk {Raw : Type} (env : RunEnv Raw) (u : String) : Bool :=
  (detailRecord env u).isSome

/-- The `while retry_count < max_retries` loop of `_collect_with_retry`.
`fuel` equals `maxRetries - rc` throughout, making the recursion structural;
`rc`, `last` and the accumulated `attempts`/`sleeps` mirror the Python
locals.  A `ParsingError` from the listing sets the structure-changed flag
and ends the loop at once; a `NetworkError` bumps `retry_count` and sleeps
`2 ** retry_count` seconds when another attempt remains; any other exception
propagates uncaught; exhausting the loop re-raises the last error (or a
fresh `NetworkError` when no attempt was made). -/
def collectLoop {Raw : Type} (env : RunEnv Raw) (maxRetries : Nat) :
    Nat → Nat → Option CollectErr → Nat → List Nat → CollectOutcome
  | 0, _, last, attempts, sleeps =>
    { result := .error (match last with
        | some e => e
        | none => .network "Failed to collect data after retries")
      attempts := attempts, sleeps := sleeps, structureChanged := false }
  | fuel + 1, rc, _last, attempts, sleeps =>
    match env.fetch_animal_list rc with
    | .error (.parsing m) =>
      { result := .error (.parsing m), attempts := attempts + 1,
        sleeps := sleeps, structureChanged := true }
    | .error (.other m) =>
      { result := .error (.other m), attempts := attempts + 1,
        sleeps := sleeps, structureChanged := false }
    | .error (.network m) =>
      if rc + 1 < maxRetries then
        collectLoop env maxRetries fuel (rc + 1) (some (.network m))
          (attempts + 1) (sleeps ++ [2 ^ (rc + 1)])
      else
        collectLoop env maxRetries fuel (rc + 1) (some (.network m))
          (attempts + 1) sleeps
    | .ok urls =>
      { result := .ok (urls.filterMap (detailRecord env)),
        attempts := attempts + 1, sleeps := sleeps, structureChanged := false }

/-- `CollectorService._collect_with_retry`, its default `max_retries = 3`
passed explicitly. -/
def collect_with_retry {Raw : Type} (env : RunEnv Raw) (maxRetries : Nat) :
    CollectOutcome :=
  collectLoop env maxRetries maxRetries 0 none 0 []

/-- `CollectionResult` (`collector_service.py`), without the wall-clock
`execution_time_seconds` field (real time is not modelled). -/
structure CollectionResult where
  success : Bool
  total_collected : Nat
  new_count : Nat
  updated_count : Nat
  deleted_count : Nat
  errors : List String

/-- The observable effects of one `run_collection` call: listing attempts,
backoff sleeps, critical alerts sent (the source calls `send_alert` with
`CRITICAL` only), whether `notify_new_animals` fired, what was written and
persisted, the structure-changed flag, and whether the lock was released.
The notification client swallows its own failures; the output writer and
snapshot store are modelled as succeeding. -/
structure RunTrace where
  attempts : Nat
  sleeps : List Nat
  criticalAlerts : List String
  notifiedNewAnimals : Bool
  outputWritten : Option (List AnimalData)
  snapshotSaved : Option (List AnimalData)
  structureChangedFlag : Bool
  lockReleased : Bool

/-- The `except ParsingError` / `except Exception` handlers of
`run_collection`: the former sets the structure-changed flag and sends one
CRITICAL alert; both record `str(e)` as the run's sole error and return
`success=False`; the `finally` block releases the lock. -/
def runHandlers (e : CollectErr) (o : CollectOutcome) :
    CollectionResult × RunTrace :=
  match e with
  | .parsing m =>
    (⟨false, 0, 0, 0, 0, [m]⟩,
      ⟨o.attempts, o.sleeps, ["Page structure changed"], false, none, none,
        true, true⟩)
  | e =>
    (⟨false, 0, 0, 0, 0, [e.msg]⟩,
      ⟨o.attempts, o.sleeps, [], false, none, none, o.structureChanged, true⟩)

/-- `CollectorService.run_collection`: the already-running short circuit,
collection with retry, diff against the loaded snapshot, the
structure-changed alert and new-records notification, output and snapshot
writes, and the two exception handlers. -/
def run_collection {Raw : Type} (env : RunEnv Raw) :
    CollectionResult × RunTrace :=
  if env.lockExists then
    (⟨false, 0, 0, 0, 0, ["Already running"]⟩,
      ⟨0, [], [], false, none, none, false, false⟩)
  else
    let o := collect_with_retry env 3
    match o.result with
    | .error e => runHandlers e o
    | .ok collected =>
      match env.load_snapshot with
      | .error e => runHandlers e o
      | .ok previous =>
        let diff := detect_diff collected previous
        (⟨true, collected.length, diff.new.length, diff.updated.length,
            diff.deleted_candidates.length, []⟩,
          ⟨o.attempts, o.sleeps,
            (if o.structureChanged then ["Page structure changed"] else []),
            !diff.new.isEmpty, some collected, some collected,
            o.structureChanged, true⟩)

theorem collectLoop_parsing {Raw : Type} {env : RunEnv Raw} {rc : Nat}
    {m : String} (h : env.fetch_animal_list rc = .error (.parsing m))
    (maxRetries fuel : Nat) (last : Option CollectErr) (attempts : Nat)
    (sleeps : List Nat) :
    collectLoop env maxRetries (fuel + 1) rc last attempts sleeps =
      { result := .error (.parsing m), attempts := attempts + 1,
        sleeps := sleeps, structureChanged := true } := by
  simp only [collectLoop, h]

theorem collectLoop_net {Raw : Type} {env : RunEnv Raw} {rc : Nat}
    {m : String} (h : env.fetch_animal_list rc = .error (.network m))
    (maxRetries fuel : Nat) (last : Option CollectErr) (attempts : Nat)
    (sleeps : List Nat) :
    collectLoop env maxRetries (fuel + 1) rc last attempts sleeps =
      (if rc + 1 < maxRetries then
        collectLoop env maxRetries fuel (rc + 1) (some (.network m))
          (attempts + 1) (sleeps ++ [2 ^ (rc + 1)])
      else
        collectLoop env maxRetries fuel (rc + 1) (some (.network m))
          (attempts + 1) sleeps) := by
  simp only [collectLoop, h]

theorem collectLoop_ok {Raw : Type} {env : RunEnv Raw} {rc : Nat}
    {urls : List String} (h : env.fetch_animal_list rc = .ok urls)
    (maxRetries fuel : Nat) (last : Option CollectErr) (attempts : Nat)
    (sleeps : List Nat) :
    collectLoop env maxRetries (fuel + 1) rc last attempts sleeps =
      { result := .ok (urls.filterMap (detailRecord env)),
        attempts := attempts + 1, sleeps := sleeps,
        structureChanged := false } := by
  simp only [collectLoop, h]

theorem run_collection_error {Raw : Type} (env : RunEnv Raw)
    (hlock : env.lockExists = false) {e : CollectErr} {o : CollectOutcome}
    (hc : collect_with_retry env 3 = o) (he : o.result = .error e) :
    run_collection env = runHandlers e o := by
  simp [run_collection, hlock, hc, he]

theorem run_collection_load_error {Raw : Type} (env : RunEnv Raw)
    (hlock : env.lockExists = false) {collected : List AnimalData}
    {e : CollectErr} {o : CollectOutcome}
    (hc : collect_with_retry env 3 = o) (he : o.result = .ok collected)
    (hl : env.load_snapshot = .error e) :
    run_collection env = runHandlers e o := by
  simp [run_collection, hlock, hc, he, hl]

theorem run_collection_ok {Raw : Type} (env : RunEnv Raw)
    (hlock : env.lockExists = false) {collected previous : List AnimalData}
    {o : CollectOutcome}
    (hc : collect_with_retry env 3 = o) (he : o.result = .ok collected)
    (hl : env.load_snapshot = .ok previous) :
    run_collection env =
      (⟨true, collected.length, (detect_diff collected previous).new.length,
          (detect_diff collected previous).updated.length,
          (detect_diff collected previous).deleted_candidates.length, []⟩,
        ⟨o.attempts, o.sleeps,
          (if o.structureChanged then ["Page structure changed"] else []),
          !(detect_diff collected previous).new.isEmpty, some collected,
          some collected, o.structureChanged, true⟩) := by
  simp [run_collection, hlock, hc, he, hl]

theorem runHandlers_attempts (e : CollectErr) (o : CollectOutcome) :
    (runHandlers e o).2.attempts = o.attempts := by
  cases e <;> rfl

theorem runHandlers_sleeps (e : CollectErr) (o : CollectOutcome) :
    (runHandlers e o).2.sleeps = o.sleeps := by
  cases e <;> rfl

/-- Claim C1, amended: a `ParsingError` raised by the listing step — on the
first attempt or after any number of network-failing attempts — is never
retried (the listing is fetched exactly `n + 1` times), fails the run, sets
the structure-changed flag, and sends the CRITICAL alert. -/
theorem C1_listing_structure_mismatch_fatal {Raw : Type} (env : RunEnv Raw)
    (n : Nat) (msg : String) (hlock : env.lockExists = false) (hn : n < 3)
    (hnet : ∀ i, i < n → ∃ m, env.fetch_animal_list i = .error (.network m))
    (hpar : env.fetch_animal_list n = .error (.parsing msg)) :
    (run_collection env).1.success = false ∧
    (run_collection env).1.errors = [msg] ∧
    (run_collection env).2.attempts = n + 1 ∧
    (run_collection env).2.criticalAlerts = ["Page structure changed"] ∧
    (run_collection env).2.structureChangedFlag = true := by
  interval_cases n
  · have hc : collect_with_retry env 3 =
        { result := .error (.parsing msg), attempts := 1, sleeps := [],
          structureChanged := true } := by
      show collectLoop env 3 (2 + 1) 0 none 0 [] = _
      rw [collectLoop_parsing hpar]
    rw [run_collection_error env hlock hc rfl]
    exact ⟨rfl, rfl, rfl, rfl, rfl⟩
  · obtain ⟨m0, h0⟩ := hnet 0 (by norm_num)
    have hc : collect_with_retry env 3 =
        { result := .error (.parsing msg), attempts := 2, sleeps := [2],
          structureChanged := true } := by
      show collectLoop env 3 (2 + 1) 0 none 0 [] = _
      rw [collectLoop_net h0, if_pos (show 0 + 1 < 3 by norm_num)]
      show collectLoop env 3 (1 + 1) 1 (some (.network m0)) 1 [2] = _
      rw [collectLoop_parsing hpar]
    rw [run_collection_error env hlock hc rfl]
    exact ⟨rfl, rfl, rfl, rfl, rfl⟩
  · obtain ⟨m0, h0⟩ := hnet 0 (by norm_num)
    obtain ⟨m1, h1⟩ := hnet 1 (by norm_num)
    have hc : collect_with_retry env 3 =
        { result := .error (.parsing msg), attempts := 3, sleeps := [2, 4],
          structureChanged := true } := by
      show collectLoop env 3 (2 + 1) 0 none 0 [] = _
      rw [collectLoop_net h0, if_pos (show 0 + 1 < 3 by norm_num)]
      show collectLoop env 3 (1 + 1) 1 (some (.network m0)) 1 [2] = _
      rw [collectLoop_net h1, if_pos (show 1 + 1 < 3 by norm_num)]
      show collectLoop env 3 (0 + 1) 2 (some (.network m1)) 2 [2, 4] = _
      rw [collectLoop_parsing hpar]
    rw [run_collection_error env hlock hc rfl]
    exact ⟨rfl, rfl, rfl, rfl, rfl⟩

/-- An environment whose listing raises `ParsingError` immediately. -/
def envListParsing : RunEnv Unit :=
  { lockExists := false
    fetch_animal_list := fun _ => .error (.parsing "listing structure changed")
    extract_animal_details := fun _ => .error (.other "unused")
    normalizeRaw := fun _ => .error (.other "unused")
    load_snapshot := .ok [] }

/-- Witness for `C1_listing_structure_mismatch_fatal` with the `ParsingError`
on the first listing attempt. -/
theorem C1_listing_structure_mismatch_fatal_witness :
    (run_collection envListParsing).1.success = false ∧
    (run_collection envListParsing).1.errors = ["listing structure changed"] ∧
    (run_collection envListParsing).2.attempts = 0 + 1 ∧
    (run_collection envListParsing).2.criticalAlerts = ["Page structure changed"] ∧
    (run_collection envListParsing).2.structureChangedFlag = true :=
  C1_listing_structure_mismatch_fatal envListParsing 0 "listing structure changed"
    rfl (by norm_num) (fun i hi => absurd hi (Nat.not_lt_zero i)) rfl

/-- An environment whose listing succeeds but whose only detail page raises
`ParsingError` during extraction. -/
def envDetailParsing : RunEnv Unit :=
  { lockExists := false
    fetch_animal_list := fun _ => .ok ["https://example-kochi.jp/animals/123"]
    extract_animal_details := fun _ =>
      .error (.parsing "detail page structure changed")
    normalizeRaw := fun _ => .error (.other "unused")
    load_snapshot := .ok [] }

/-- Claim C1, counterexample to the claim as stated: a `ParsingError`
(StructureMismatch) raised while extracting an individual detail page is
caught at the per-item boundary (`except Exception`) and the record skipped —
the run still succeeds, no CRITICAL alert is sent, and the structure-changed
flag stays unset. -/
theorem C1_counterexample :
    (run_collection envDetailParsing).1.success = true ∧
    (run_collection envDetailParsing).1.errors = [] ∧
    (run_collection envDetailParsing).1.total_collected = 0 ∧
    (run_collection envDetailParsing).2.criticalAlerts = [] ∧
    (run_collection envDetailParsing).2.structureChangedFlag = false :=
  ⟨rfl, rfl, rfl, rfl, rfl⟩

/-- Claim C4: when the listing fetch raises `NetworkError` on every attempt,
the orchestrator fetches the listing exactly 3 times, sleeps the doubling
backoff 2s then 4s between consecutive attempts, fails the run and records
the last attempt's network error as the run's sole error, sending no alert;
and the retry applies only to the listing step — when the listing succeeds
at once, exactly one fetch and no sleeps happen regardless of the detail
pages' outcomes. -/
theorem C4_listing_retry_exhaustion {Raw Raw' : Type} (env : RunEnv Raw)
    (env' : RunEnv Raw') (msgs : Nat → String) (urls' : List String)
    (hlock : env.lockExists = false)
    (hnet : ∀ i, i < 3 → env.fetch_animal_list i = .error (.network (msgs i)))
    (hlock' : env'.lockExists = false)
    (hok : env'.fetch_animal_list 0 = .ok urls') :
    ((run_collection env).1.success = false ∧
      (run_collection env).1.errors = [msgs 2] ∧
      (run_collection env).2.attempts = 3 ∧
      (run_collection env).2.sleeps = [2, 4] ∧
      (run_collection env).2.criticalAlerts = []) ∧
    ((run_collection env').2.attempts = 1 ∧
      (run_collection env').2.sleeps = []) := by
  constructor
  · have hc : collect_with_retry env 3 =
        { result := .error (.network (msgs 2)), attempts := 3,
          sleeps := [2, 4], structureChanged := false } := by
      show collectLoop env 3 (2 + 1) 0 none 0 [] = _
      rw [collectLoop_net (hnet 0 (by norm_num)), if_pos (show 0 + 1 < 3 by norm_num)]
      show collectLoop env 3 (1 + 1) 1 (some (.network (msgs 0))) 1 [2] = _
      rw [collectLoop_net (hnet 1 (by norm_num)), if_pos (show 1 + 1 < 3 by norm_num)]
      show collectLoop env 3 (0 + 1) 2 (some (.network (msgs 1))) 2 [2, 4] = _
      rw [collectLoop_net (hnet 2 (by norm_num)), if_neg (show ¬(2 + 1 < 3) by norm_num)]
      show collectLoop env 3 0 3 (some (.network (msgs 2))) 3 [2, 4] = _
      rfl
    rw [run_collection_error env hlock hc rfl]
    exact ⟨rfl, rfl, rfl, rfl, rfl⟩
  · have hc' : collect_with_retry env' 3 =
        { result := .ok (urls'.filterMap (detailRecord env')), attempts := 1,
          sleeps := [], structureChanged := false } := by
      show collectLoop env' 3 (2 + 1) 0 none 0 [] = _
      rw [collectLoop_ok hok]
    rcases hls : env'.load_snapshot with e | prev
    · rw [run_collection_load_error env' hlock' hc' rfl hls]
      exact ⟨runHandlers_attempts e _, runHandlers_sleeps e _⟩
    · rw [run_collection_ok env' hlock' hc' rfl hls]
      exact ⟨rfl, rfl⟩

/-- An environment whose listing raises `NetworkError` on all three
attempts. -/
def envAllNetwork : RunEnv Unit :=
  { lockExists := false
    fetch_animal_list := fun i =>
      .error (.network (if i = 0 then "e0" else if i = 1 then "e1" else "e2"))
    extract_animal_details := fun _ => .error (.other "unused")
    normalizeRaw := fun _ => .error (.other "unused")
    load_snapshot := .ok [] }

/-- An environment whose listing succeeds immediately with one failing
detail page. -/
def envListingOk : RunEnv Unit :=
  { lockExists := false
    fetch_animal_list := fun _ => .ok ["u1"]
    extract_animal_details := fun _ => .error (.network "detail timeout")
    normalizeRaw := fun _ => .ok sampleAnimal
    load_snapshot := .ok [] }

/-- Witness for `C4_listing_retry_exhaustion`. -/
theorem C4_listing_retry_exhaustion_witness :
    (((run_collection envAllNetwork).1.success = false ∧
      (run_collection envAllNetwork).1.errors = ["e2"] ∧
      (run_collection envAllNetwork).2.attempts = 3 ∧
      (run_collection envAllNetwork).2.sleeps = [2, 4] ∧
      (run_collection envAllNetwork).2.criticalAlerts = []) ∧
    ((run_collection envListingOk).2.attempts = 1 ∧
      (run_collection envListingOk).2.sleeps = [])) :=
  C4_listing_retry_exhaustion envAllNetwork envListingOk
    (fun i => if i = 0 then "e0" else if i = 1 then "e1" else "e2") ["u1"]
    rfl (by intro i hi; interval_cases i <;> rfl) rfl rfl

theorem length_filterMap_detail {Raw : Type} (env : RunEnv Raw) :
    ∀ l : List String, (l.filterMap (detailRecord env)).length =
      (l.filter (fun u => detailOk env u)).length := by
  intro l
  induction l with
  | nil => rfl
  | cons x xs ih =>
    rcases hf : detailRecord env x with _ | b
    · have hx : detailOk env x = false := by rw [detailOk, hf]; rfl
      simp [List.filterMap_cons, List.filter_cons, hf, hx, ih]
    · have hx : detailOk env x = true := by rw [detailOk, hf]; rfl
      simp [List.filterMap_cons, List.filter_cons, hf, hx, ih]

theorem length_filter_split {α : Type} (p : α → Bool) :
    ∀ l : List α, (l.filter (fun a => p a)).length +
      (l.filter (fun a => !(p a))).length = l.length := by
  intro l
  induction l with
  | nil => rfl
  | cons x xs ih =>
    cases hp : p x <;> simp [List.filter_cons, hp] <;> omega

/-- Claim C5: after a successful listing of five detail identifiers of which
exactly one fails during fetch, extraction or normalization, that record is
skipped without retry or propagation — one listing attempt, no sleeps — the
collected (and persisted) set is exactly the successfully normalized
records, of which there are 4, and the run reports success. -/
theorem C5_one_of_five_details_fails {Raw : Type} (env : RunEnv Raw)
    (urls : List String) (previous : List AnimalData)
    (hlock : env.lockExists = false)
    (hok : env.fetch_animal_list 0 = .ok urls)
    (hload : env.load_snapshot = .ok previous)
    (hlen : urls.length = 5)
    (hfail : (urls.filter (fun u => !(detailOk env u))).length = 1) :
    (run_collection env).1.success = true ∧
    (run_collection env).1.total_collected = 4 ∧
    (run_collection env).2.attempts = 1 ∧
    (run_collection env).2.sleeps = [] ∧
    (run_collection env).2.snapshotSaved =
      some (urls.filterMap (detailRecord env)) := by
  have hc : collect_with_retry env 3 =
      { result := .ok (urls.filterMap (detailRecord env)), attempts := 1,
        sleeps := [], structureChanged := false } := by
    show collectLoop env 3 (2 + 1) 0 none 0 [] = _
    rw [collectLoop_ok hok]
  rw [run_collection_ok env hlock hc rfl hload]
  refine ⟨rfl, ?_, rfl, rfl, rfl⟩
  show (urls.filterMap (detailRecord env)).length = 4
  rw [length_filterMap_detail]
  have hsplit := length_filter_split (detailOk env) urls
  omega

/-- An environment listing five detail pages, of which exactly one
(`"u3"`) fails with a network error. -/
def envFiveDetails : RunEnv String :=
  { lockExists := false
    fetch_animal_list := fun _ => .ok ["u1", "u2", "u3", "u4", "u5"]
    extract_animal_details := fun u =>
      if u = "u3" then .error (.network "timeout") else .ok u
    normalizeRaw := fun u => .ok { sampleAnimal with source_url := u }
    load_snapshot := .ok [] }

/-- Witness for `C5_one_of_five_details_fails`. -/
theorem C5_one_of_five_details_fails_witness :
    (run_collection envFiveDetails).1.success = true ∧
    (run_collection envFiveDetails).1.total_collected = 4 ∧
    (run_collection envFiveDetails).2.attempts = 1 ∧
    (run_collection envFiveDetails).2.sleeps = [] ∧
    (run_collection envFiveDetails).2.snapshotSaved =
      some (["u1", "u2", "u3", "u4", "u5"].filterMap
        (detailRecord envFiveDetails)) :=
  C5_one_of_five_details_fails envFiveDetails ["u1", "u2", "u3", "u4", "u5"]
    [] rfl rfl rfl (by decide) (by decide)
